import Mathlib

/-!
Verification of the tilemaker inspection scripts
(`check_mbtiles.py`, `inspect_tile_http.py`, `test_vtzero_negative.py`).

The Python sources are shallowly embedded below.  External effects are
parameters:

* the sqlite store (`SELECT tile_data FROM tiles WHERE zoom_level=? AND
  tile_column=? AND tile_row=?`) becomes a function
  `store : Nat → Int → Int → Option Bytes`;
* `gzip.decompress` becomes an abstract function `gz : Bytes → Bytes`;
* `mapbox_vector_tile.decode` becomes `dec : Bytes → Option DecodedTile`
  (`none` models the decode raising an exception).

Python `int` is unbounded, so tile coordinates are `Int`; byte strings are
`List Nat`.
-/

namespace Tilemaker

/-- Raw tile bytes (`bytes` in Python). -/
abbrev Bytes := List Nat

/-- The dictionary `feat.get('geometry', {})` produced by
`mapbox_vector_tile.decode`: `geom.get('type')` and
`geom.get('coordinates')`, each possibly absent (`None`). For a Point the
coordinates are the flat pair `[x, y]`. -/
structure Geometry where
  type : Option String
  coordinates : Option (List Int)
  deriving DecidableEq, Repr

/-- A decoded feature dictionary: `feat.get('id')` (possibly absent) and
`feat.get('geometry', {})` (absent key modelled as `none`, read back as the
empty dictionary `⟨none, none⟩`).  `find_targets_in_tile` reads nothing
else of a feature. -/
structure Feature where
  id : Option Int
  geometry : Option Geometry
  deriving DecidableEq, Repr

/-- `feat.get('geometry', {})`. -/
def Feature.geom (f : Feature) : Geometry :=
  f.geometry.getD ⟨none, none⟩

/-- A decoded layer dictionary: `layer.get('features', [])`.  An entry
`none` models a list element that is not a dict (skipped by the source's
`isinstance(feat, dict)` check). -/
structure Layer where
  features : List (Option Feature)
  deriving DecidableEq, Repr

/-- The dictionary returned by `mapbox_vector_tile.decode`: layer name →
layer.  A Python dict, so keys are distinct and iteration order is
insertion order; modelled as an association list. -/
abbrev DecodedTile := List (String × Layer)

/-- `ln in tile` / `tile[ln]`: association-list lookup. -/
def lookupLayer (ln : String) (tile : DecodedTile) : Option Layer :=
  match tile with
  | [] => none
  | (k, v) :: rest => if k = ln then some v else lookupLayer ln rest

/-- TMS y-flip from `read_tile_from_mbtiles` /
`check_tile_for_negative_coords`:
`max_coord = (1 << zoom) - 1; flip_y = max_coord - y`. -/
def flip_y (zoom : Nat) (y : Int) : Int :=
  ((1 <<< zoom : Nat) : Int) - 1 - y

/-- The gzip-envelope unwrap shared by `read_tile_from_mbtiles` and
`inspect_tile`: `if tile_data[:2] == b'\x1f\x8b': tile_data =
gzip.decompress(tile_data)`. -/
def unwrapEnvelope (gz : Bytes → Bytes) (data : Bytes) : Bytes :=
  if data.take 2 = [0x1f, 0x8b] then gz data else data

/-- `read_tile_from_mbtiles(mbtiles_path, zoom, x, y)`: look the row up
under the flipped y; `None` when `fetchone` finds no row; otherwise the
(possibly decompressed) tile bytes. -/
def read_tile_from_mbtiles (gz : Bytes → Bytes)
    (store : Nat → Int → Int → Option Bytes)
    (zoom : Nat) (x y : Int) : Option Bytes :=
  match store zoom x (flip_y zoom y) with
  | none => none
  | some tile_data => some (unwrapEnvelope gz tile_data)

end Tilemaker

namespace Tilemaker

/-- The per-feature body of the loop in `find_targets_in_tile`: skip
non-dict entries, require `feat.get('id') in target_ids` (a `None` id is
never a member of the integer target set), require
`geom.get('type') == 'Point'`, require `coords and len(coords) >= 2`;
on success the appended pair `(feat, coords)`. -/
def featureMatchEntry (targets : List Int) (fe : Option Feature) :
    Option (Feature × List Int) :=
  match fe with
  | none => none
  | some feat =>
    match feat.id with
    | none => none
    | some fid =>
      if fid ∈ targets then
        if feat.geom.type = some "Point" then
          match feat.geom.coordinates with
          | none => none
          | some cs => if 2 ≤ cs.length then some (feat, cs) else none
        else none
      else none

/-- The matches collected for one layer (the inner `for feat in
features` loop, appending to `results[ln]`). -/
def layerMatches (targets : List Int) (lay : Layer) :
    List (Feature × List Int) :=
  lay.features.filterMap (featureMatchEntry targets)

/-- `layers_to_search = [layer_name] if layer_name else tile.keys()`:
the branch is on Python truthiness, so both `None` and the falsy empty
string select all layer names. -/
def layersToSearch (tile : DecodedTile) (layerName : Option String) :
    List String :=
  match layerName with
  | some ln => if ln = "" then tile.map Prod.fst else [ln]
  | none => tile.map Prod.fst

/-- `find_targets_in_tile` after a successful decode: iterate
`layers_to_search`, skip `ln not in tile`, collect the per-layer match
lists.  A layer appears in the returned dict iff at least one pair was
appended for it (`defaultdict(list)` creates an entry only on append,
and layer names are distinct dict keys). -/
def findTargets (tile : DecodedTile) (targets : List Int)
    (layerName : Option String) :
    List (String × List (Feature × List Int)) :=
  (layersToSearch tile layerName).filterMap fun ln =>
    match lookupLayer ln tile with
    | none => none
    | some lay =>
      let ms := layerMatches targets lay
      if ms.isEmpty then none else some (ln, ms)

/-- `find_targets_in_tile(tile_data, target_ids, layer_name)` including
the decode step: a decode exception prints an error and returns `{}`. -/
def find_targets_in_tile (dec : Bytes → Option DecodedTile)
    (tile_data : Bytes) (targets : List Int) (layerName : Option String) :
    List (String × List (Feature × List Int)) :=
  match dec tile_data with
  | none => []
  | some tile => findTargets tile targets layerName

end Tilemaker

namespace Tilemaker

/-- The guarded append inside the nested loops of `get_neighbor_tiles`:
`if 0 <= nx <= max_coord and 0 <= ny <= max_coord: tiles.append((zoom, nx, ny))`. -/
def nbCell (zoom : Nat) (nx ny : Int) : List (Nat × Int × Int) :=
  if 0 ≤ nx ∧ nx ≤ ((1 <<< zoom : Nat) : Int) - 1 ∧
     0 ≤ ny ∧ ny ≤ ((1 <<< zoom : Nat) : Int) - 1
  then [(zoom, nx, ny)] else []

/-- `get_neighbor_tiles(zoom, x, y)`: `for dy in [-1, 0, 1]: for dx in
[-1, 0, 1]:` append `(zoom, x+dx, y+dy)` when both coordinates are in
`[0, max_coord]`. -/
def get_neighbor_tiles (zoom : Nat) (x y : Int) : List (Nat × Int × Int) :=
  ([-1, 0, 1] : List Int).flatMap fun dy =>
    ([-1, 0, 1] : List Int).flatMap fun dx =>
      nbCell zoom (x + dx) (y + dy)

/-- The aggregate entry type of `search_all_tiles`; the derived
instances need a nudge past the default instance-search size. -/
instance : DecidableEq ((Nat × Int × Int) × List (String × List (Feature × List Int))) :=
  instDecidableEqProd

/-- Python dict insertion `all_results[(z, x, y)] = results`: update in
place when the key exists, otherwise append (insertion order). -/
def dictInsert {α β : Type} [DecidableEq α] (k : α) (v : β)
    (m : List (α × β)) : List (α × β) :=
  if m.any fun p => decide (p.1 = k) then
    m.map fun p => if p.1 = k then (k, v) else p
  else m ++ [(k, v)]

/-- The body of the `for z, x, y in tiles` loop of `search_all_tiles`:
read the tile (`None` and empty bytes are both falsy, so skipped), search
it, and store the per-layer results only when non-empty. -/
def searchStep (gz : Bytes → Bytes) (dec : Bytes → Option DecodedTile)
    (store : Nat → Int → Int → Option Bytes) (targets : List Int)
    (layerName : Option String)
    (acc : List ((Nat × Int × Int) × List (String × List (Feature × List Int))))
    (t : Nat × Int × Int) :
    List ((Nat × Int × Int) × List (String × List (Feature × List Int))) :=
  match read_tile_from_mbtiles gz store t.1 t.2.1 t.2.2 with
  | none => acc
  | some tile_data =>
    if tile_data = [] then acc
    else
      let results := find_targets_in_tile dec tile_data targets layerName
      if results.isEmpty then acc else dictInsert t results acc

/-- `search_all_tiles(mbtiles_path, tiles, target_ids, layer_name)`:
fold the per-tile step over the tile list, starting from the empty
`all_results` dict. -/
def search_all_tiles (gz : Bytes → Bytes) (dec : Bytes → Option DecodedTile)
    (store : Nat → Int → Int → Option Bytes)
    (tiles : List (Nat × Int × Int)) (targets : List Int)
    (layerName : Option String) :
    List ((Nat × Int × Int) × List (String × List (Feature × List Int))) :=
  tiles.foldl (searchStep gz dec store targets layerName) []

/-- The observable outcome of `check_tile_for_negative_coords` in
`test_vtzero_negative.py`, named after the message it prints before
returning: `Tile not found`, `Not a valid MVT tile (wrong magic)`,
`Error decoding`, or the final negative-coordinate verdict. -/
inductive ProbeOutcome where
  | tileNotFound
  | wrongMagic
  | decodeError
  | scanned (hasNegative : Bool)
  deriving DecidableEq, Repr

/-- The per-feature negative-coordinate test of the probe script: a dict
feature with Point geometry and `coords and len(coords) >= 2` is flagged
when `coords[0] < 0` or `coords[1] < 0`. -/
def featHasNeg (fe : Option Feature) : Bool :=
  match fe with
  | none => false
  | some feat =>
    if feat.geom.type = some "Point" then
      match feat.geom.coordinates with
      | none => false
      | some cs =>
        if 2 ≤ cs.length then
          decide (cs.getD 0 0 < 0) || decide (cs.getD 1 0 < 0)
        else false
    else false

/-- The `has_negative` flag computed by the probe script's scan over all
layers and features. -/
def hasNegCoords (tile : DecodedTile) : Bool :=
  tile.any fun lp => lp.2.features.any featHasNeg

/-- `check_tile_for_negative_coords(mbtiles_path, zoom, x, y)` from
`test_vtzero_negative.py`, including its tile-validity check
`if tile_data[:0] != b'\x1a': print("Not a valid MVT tile"); return`. -/
def check_tile_for_negative_coords (gz : Bytes → Bytes)
    (dec : Bytes → Option DecodedTile)
    (store : Nat → Int → Int → Option Bytes)
    (zoom : Nat) (x y : Int) : ProbeOutcome :=
  match store zoom x (flip_y zoom y) with
  | none => ProbeOutcome.tileNotFound
  | some raw =>
    let tile_data := unwrapEnvelope gz raw
    if tile_data.take 0 ≠ [0x1a] then ProbeOutcome.wrongMagic
    else
      match dec tile_data with
      | none => ProbeOutcome.decodeError
      | some tile => ProbeOutcome.scanned (hasNegCoords tile)

/-- The probe script with the `tile_data[:0] != b'\x1a'` check removed:
the reference point for deciding whether that check is a no-op. -/
def check_tile_without_magic_check (gz : Bytes → Bytes)
    (dec : Bytes → Option DecodedTile)
    (store : Nat → Int → Int → Option Bytes)
    (zoom : Nat) (x y : Int) : ProbeOutcome :=
  match store zoom x (flip_y zoom y) with
  | none => ProbeOutcome.tileNotFound
  | some raw =>
    let tile_data := unwrapEnvelope gz raw
    match dec tile_data with
    | none => ProbeOutcome.decodeError
    | some tile => ProbeOutcome.scanned (hasNegCoords tile)

/-- A target feature with LineString geometry (concrete test fixture). -/
def lineFeature : Feature :=
  { id := some 5, geometry := some { type := some "LineString", coordinates := some [0, 1, 2, 3] } }

/-- A second, different LineString feature with the same id. -/
def lineFeature2 : Feature :=
  { id := some 5, geometry := some { type := some "LineString", coordinates := some [4, 5, 6, 7] } }

/-- A tile whose only layer holds one non-Point feature with id 5. -/
def lineTile : DecodedTile := [("roads", ⟨[some lineFeature]⟩)]

/-- A tile whose only layer holds two distinct features sharing id 5. -/
def dupTile : DecodedTile := [("roads", ⟨[some lineFeature, some lineFeature2]⟩)]

/-- A Point feature with id 7 at tile-local coordinates (512, 1024). -/
def pointFeature : Feature :=
  { id := some 7, geometry := some { type := some "Point", coordinates := some [512, 1024] } }

/-- A second Point feature sharing id 7. -/
def pointFeature2 : Feature :=
  { id := some 7, geometry := some { type := some "Point", coordinates := some [3, 4] } }

/-- A tile with a `poi` layer holding the single Point feature. -/
def pointTile : DecodedTile := [("poi", ⟨[some pointFeature]⟩)]

/-- A tile with a `poi` layer holding two Point features sharing id 7. -/
def dupPointTile : DecodedTile := [("poi", ⟨[some pointFeature, some pointFeature2]⟩)]

/-- A store in which every addressed row exists with payload `[1, 2, 3]`. -/
def brokenStore : Nat → Int → Int → Option Bytes := fun _ _ _ => some [1, 2, 3]

/-- A store with no rows at all. -/
def emptyStore : Nat → Int → Int → Option Bytes := fun _ _ _ => none

/-- A store in which every addressed row exists with payload `[7]`. -/
def oneStore : Nat → Int → Int → Option Bytes := fun _ _ _ => some [7]

/-- A decoder that always raises (models corrupt payloads). -/
def decFail : Bytes → Option DecodedTile := fun _ => none

/-- A decoder that always yields `pointTile`. -/
def decPoi : Bytes → Option DecodedTile := fun _ => some pointTile

/-- A decoder yielding a tile with a negative-x Point feature. -/
def decNeg : Bytes → Option DecodedTile :=
  fun _ => some [("poi", ⟨[some { id := some 10, geometry := some { type := some "Point", coordinates := some [-5, 3] } }]⟩)]

theorem get_neighbor_tiles_eq (zoom : Nat) (x y : Int) :
    get_neighbor_tiles zoom x y =
      nbCell zoom (x + -1) (y + -1) ++ nbCell zoom (x + 0) (y + -1) ++
      nbCell zoom (x + 1) (y + -1) ++ nbCell zoom (x + -1) (y + 0) ++
      nbCell zoom (x + 0) (y + 0) ++ nbCell zoom (x + 1) (y + 0) ++
      nbCell zoom (x + -1) (y + 1) ++ nbCell zoom (x + 0) (y + 1) ++
      nbCell zoom (x + 1) (y + 1) := by
  simp [get_neighbor_tiles, List.flatMap_cons, List.append_assoc]

theorem nbCell_pos (zoom : Nat) (nx ny : Int)
    (h0 : 0 ≤ nx) (h1 : nx < ((2 ^ zoom : Nat) : Int))
    (h2 : 0 ≤ ny) (h3 : ny < ((2 ^ zoom : Nat) : Int)) :
    nbCell zoom nx ny = [(zoom, nx, ny)] := by
  have hb : 0 ≤ nx ∧ nx ≤ ((1 <<< zoom : Nat) : Int) - 1 ∧
      0 ≤ ny ∧ ny ≤ ((1 <<< zoom : Nat) : Int) - 1 := by
    rw [Nat.one_shiftLeft]
    omega
  unfold nbCell
  rw [if_pos hb]

theorem nbCell_neg (zoom : Nat) (nx ny : Int)
    (h : nx < 0 ∨ ((2 ^ zoom : Nat) : Int) ≤ nx ∨
         ny < 0 ∨ ((2 ^ zoom : Nat) : Int) ≤ ny) :
    nbCell zoom nx ny = [] := by
  have hb : ¬(0 ≤ nx ∧ nx ≤ ((1 <<< zoom : Nat) : Int) - 1 ∧
      0 ≤ ny ∧ ny ≤ ((1 <<< zoom : Nat) : Int) - 1) := by
    rw [Nat.one_shiftLeft]
    omega
  unfold nbCell
  rw [if_neg hb]

theorem mem_nbCell {zoom : Nat} {nx ny : Int} {p : Nat × Int × Int}
    (h : p ∈ nbCell zoom nx ny) :
    p = (zoom, nx, ny) ∧ 0 ≤ nx ∧ nx < ((2 ^ zoom : Nat) : Int) ∧
      0 ≤ ny ∧ ny < ((2 ^ zoom : Nat) : Int) := by
  unfold nbCell at h
  by_cases hc : 0 ≤ nx ∧ nx ≤ ((1 <<< zoom : Nat) : Int) - 1 ∧
      0 ≤ ny ∧ ny ≤ ((1 <<< zoom : Nat) : Int) - 1
  · rw [if_pos hc] at h
    simp only [List.mem_singleton] at h
    rw [Nat.one_shiftLeft] at hc
    refine ⟨h, ?_, ?_, ?_, ?_⟩ <;> omega
  · rw [if_neg hc] at h
    simp at h

end Tilemaker

namespace Tilemaker

/-- C3: the web→archive row conversion is involutive on `[0, 2^zoom)`
(in fact on all of `Int`, since Python integers are unbounded). -/
theorem flip_y_involutive (zoom : Nat) (y : Int)
    (h0 : 0 ≤ y) (h1 : y < ((2 ^ zoom : Nat) : Int)) :
    flip_y zoom (flip_y zoom y) = y := by
  unfold flip_y
  omega

theorem flip_y_involutive_witness :
    (0 : Int) ≤ 5 ∧ (5 : Int) < ((2 ^ 3 : Nat) : Int) ∧
      flip_y 3 (flip_y 3 5) = 5 :=
  ⟨by decide, by decide, flip_y_involutive 3 5 (by decide) (by decide)⟩

/-- C5: the envelope unwrap returns the gzip-decompressed payload when
the first two bytes are the gzip magic `0x1F 0x8B`, and otherwise
returns the input byte-identically unchanged. -/
theorem unwrapEnvelope_spec (gz : Bytes → Bytes) (data : Bytes) :
    (data.take 2 = [0x1f, 0x8b] → unwrapEnvelope gz data = gz data) ∧
    (data.take 2 ≠ [0x1f, 0x8b] → unwrapEnvelope gz data = data) := by
  constructor
  · intro h
    simp [unwrapEnvelope, h]
  · intro h
    simp [unwrapEnvelope, h]

theorem unwrapEnvelope_spec_witness :
    unwrapEnvelope (fun l => 9 :: l) [0x1f, 0x8b, 7] = 9 :: [0x1f, 0x8b, 7] ∧
    unwrapEnvelope (fun l => 9 :: l) [3, 4] = [3, 4] :=
  ⟨(unwrapEnvelope_spec (fun l => 9 :: l) [0x1f, 0x8b, 7]).1 (by decide),
   (unwrapEnvelope_spec (fun l => 9 :: l) [3, 4]).2 (by decide)⟩

/-- C4, counterexample: at zoom 0 the corner tile (0,0) has no in-range
neighbours besides itself, so `get_neighbor_tiles` returns 1 key there,
not 4 as the claim states for the corner tile. -/
theorem get_neighbor_tiles_corner_zoom0 :
    get_neighbor_tiles 0 0 0 = [(0, 0, 0)] ∧
    (get_neighbor_tiles 0 0 0).length ≠ 4 := by
  constructor
  · decide
  · decide

/-- C4, amended: for a center tile strictly inside the zoom's coordinate
range, `get_neighbor_tiles` returns exactly 9 distinct keys including the
center; for every zoom ≥ 1 the corner tile (0,0) yields exactly 4 distinct
keys including itself (at zoom 0 it yields only the center); and every
returned key has both coordinates within `[0, 2^zoom)`. -/
theorem get_neighbor_tiles_spec :
    (∀ (zoom : Nat) (x y : Int),
      1 ≤ x → x ≤ ((2 ^ zoom : Nat) : Int) - 2 →
      1 ≤ y → y ≤ ((2 ^ zoom : Nat) : Int) - 2 →
      (get_neighbor_tiles zoom x y).length = 9 ∧
      (get_neighbor_tiles zoom x y).Nodup ∧
      (zoom, x, y) ∈ get_neighbor_tiles zoom x y) ∧
    (∀ zoom : Nat, 1 ≤ zoom →
      (get_neighbor_tiles zoom 0 0).length = 4 ∧
      (get_neighbor_tiles zoom 0 0).Nodup ∧
      (zoom, (0 : Int), (0 : Int)) ∈ get_neighbor_tiles zoom 0 0) ∧
    (∀ (zoom : Nat) (x y : Int) (z' : Nat) (nx ny : Int),
      (z', nx, ny) ∈ get_neighbor_tiles zoom x y →
      0 ≤ nx ∧ nx < ((2 ^ zoom : Nat) : Int) ∧
      0 ≤ ny ∧ ny < ((2 ^ zoom : Nat) : Int)) := by
  refine ⟨?_, ?_, ?_⟩
  · intro zoom x y hx0 hx1 hy0 hy1
    have hlist : get_neighbor_tiles zoom x y =
        [(zoom, x + -1, y + -1), (zoom, x + 0, y + -1), (zoom, x + 1, y + -1),
         (zoom, x + -1, y + 0), (zoom, x + 0, y + 0), (zoom, x + 1, y + 0),
         (zoom, x + -1, y + 1), (zoom, x + 0, y + 1), (zoom, x + 1, y + 1)] := by
      rw [get_neighbor_tiles_eq,
        nbCell_pos zoom (x + -1) (y + -1) (by omega) (by omega) (by omega) (by omega),
        nbCell_pos zoom (x + 0) (y + -1) (by omega) (by omega) (by omega) (by omega),
        nbCell_pos zoom (x + 1) (y + -1) (by omega) (by omega) (by omega) (by omega),
        nbCell_pos zoom (x + -1) (y + 0) (by omega) (by omega) (by omega) (by omega),
        nbCell_pos zoom (x + 0) (y + 0) (by omega) (by omega) (by omega) (by omega),
        nbCell_pos zoom (x + 1) (y + 0) (by omega) (by omega) (by omega) (by omega),
        nbCell_pos zoom (x + -1) (y + 1) (by omega) (by omega) (by omega) (by omega),
        nbCell_pos zoom (x + 0) (y + 1) (by omega) (by omega) (by omega) (by omega),
        nbCell_pos zoom (x + 1) (y + 1) (by omega) (by omega) (by omega) (by omega)]
      simp
    rw [hlist]
    refine ⟨rfl, ?_, ?_⟩
    · simp only [List.nodup_cons, List.mem_cons, List.mem_singleton,
        Prod.mk.injEq, List.not_mem_nil, List.nodup_nil, and_true, not_or,
        true_and, not_false_iff]
      omega
    · simp only [List.mem_cons, List.mem_singleton, Prod.mk.injEq,
        List.not_mem_nil, true_and, or_false, false_or]
      omega
  · intro zoom hz
    have h2 : (2 : Int) ≤ ((2 ^ zoom : Nat) : Int) := by
      have : 1 < 2 ^ zoom := Nat.one_lt_two_pow_iff.mpr (by omega)
      omega
    have hlist : get_neighbor_tiles zoom 0 0 =
        [(zoom, (0 : Int) + 0, (0 : Int) + 0), (zoom, (0 : Int) + 1, (0 : Int) + 0),
         (zoom, (0 : Int) + 0, (0 : Int) + 1), (zoom, (0 : Int) + 1, (0 : Int) + 1)] := by
      rw [get_neighbor_tiles_eq,
        nbCell_neg zoom ((0 : Int) + -1) ((0 : Int) + -1) (by omega),
        nbCell_neg zoom ((0 : Int) + 0) ((0 : Int) + -1) (by omega),
        nbCell_neg zoom ((0 : Int) + 1) ((0 : Int) + -1) (by omega),
        nbCell_neg zoom ((0 : Int) + -1) ((0 : Int) + 0) (by omega),
        nbCell_pos zoom ((0 : Int) + 0) ((0 : Int) + 0) (by omega) (by omega) (by omega) (by omega),
        nbCell_pos zoom ((0 : Int) + 1) ((0 : Int) + 0) (by omega) (by omega) (by omega) (by omega),
        nbCell_neg zoom ((0 : Int) + -1) ((0 : Int) + 1) (by omega),
        nbCell_pos zoom ((0 : Int) + 0) ((0 : Int) + 1) (by omega) (by omega) (by omega) (by omega),
        nbCell_pos zoom ((0 : Int) + 1) ((0 : Int) + 1) (by omega) (by omega) (by omega) (by omega)]
      simp
    rw [hlist]
    refine ⟨rfl, ?_, ?_⟩
    · simp only [List.nodup_cons, List.mem_cons, List.mem_singleton,
        Prod.mk.injEq, List.not_mem_nil, List.nodup_nil, and_true, not_or,
        true_and, not_false_iff]
      omega
    · simp only [List.mem_cons, List.mem_singleton, Prod.mk.injEq,
        List.not_mem_nil, true_and, or_false, false_or]
      omega
  · intro zoom x y z' nx ny h
    unfold get_neighbor_tiles at h
    simp only [List.mem_flatMap] at h
    obtain ⟨dy, -, dx, -, hmem⟩ := h
    obtain ⟨hp, h0, h1, h2, h3⟩ := mem_nbCell hmem
    rw [Prod.mk.injEq, Prod.mk.injEq] at hp
    obtain ⟨-, hx, hy⟩ := hp
    subst hx
    subst hy
    exact ⟨h0, h1, h2, h3⟩

theorem featureMatchEntry_sound {targets : List Int} {fe : Option Feature}
    {feat : Feature} {cs : List Int}
    (h : featureMatchEntry targets fe = some (feat, cs)) :
    fe = some feat ∧ feat.geom.type = some "Point" ∧
      feat.geom.coordinates = some cs ∧ 2 ≤ cs.length ∧
      ∃ fid, feat.id = some fid ∧ fid ∈ targets := by
  unfold featureMatchEntry at h
  split at h
  · exact absurd h (by simp)
  next f =>
    split at h
    · exact absurd h (by simp)
    next fid hid =>
      split at h
      · split at h
        · split at h
          · exact absurd h (by simp)
          next cs' hco =>
            split at h
            next hlen =>
              simp only [Option.some.injEq, Prod.mk.injEq] at h
              obtain ⟨rfl, rfl⟩ := h
              exact ⟨rfl, by assumption, hco, hlen, fid, hid, by assumption⟩
            · exact absurd h (by simp)
        · exact absurd h (by simp)
      · exact absurd h (by simp)

theorem mem_findTargets {tile : DecodedTile} {targets : List Int}
    {layerName : Option String} {ln : String}
    {ms : List (Feature × List Int)}
    (h : (ln, ms) ∈ findTargets tile targets layerName) :
    ∃ lay, lookupLayer ln tile = some lay ∧ ms = layerMatches targets lay ∧
      ms ≠ [] := by
  unfold findTargets at h
  simp only [List.mem_filterMap] at h
  obtain ⟨ln', -, heq⟩ := h
  cases hl : lookupLayer ln' tile with
  | none => rw [hl] at heq; simp at heq
  | some lay =>
    rw [hl] at heq
    simp only at heq
    by_cases he : (layerMatches targets lay).isEmpty
    · rw [if_pos he] at heq
      simp at heq
    · rw [if_neg he] at heq
      simp only [Option.some.injEq, Prod.mk.injEq] at heq
      obtain ⟨rfl, rfl⟩ := heq
      exact ⟨lay, hl, rfl, by simpa [List.isEmpty_iff] using he⟩

theorem lookupLayer_mem_keys {ln : String} {tile : DecodedTile} {lay : Layer}
    (h : lookupLayer ln tile = some lay) : ln ∈ tile.map Prod.fst := by
  induction tile with
  | nil => simp [lookupLayer] at h
  | cons p rest ih =>
    rw [lookupLayer] at h
    by_cases hk : p.1 = ln
    · simp [hk.symm]
    · rw [if_neg hk] at h
      simp only [List.map_cons, List.mem_cons]
      exact Or.inr (ih h)

theorem get_neighbor_tiles_spec_witness :
    ((get_neighbor_tiles 2 1 1).length = 9 ∧
     (get_neighbor_tiles 2 1 1).Nodup ∧
     (2, (1 : Int), (1 : Int)) ∈ get_neighbor_tiles 2 1 1) ∧
    ((get_neighbor_tiles 1 0 0).length = 4 ∧
     (get_neighbor_tiles 1 0 0).Nodup ∧
     (1, (0 : Int), (0 : Int)) ∈ get_neighbor_tiles 1 0 0) ∧
    (0 ≤ (1 : Int) ∧ (1 : Int) < ((2 ^ 1 : Nat) : Int) ∧
     0 ≤ (1 : Int) ∧ (1 : Int) < ((2 ^ 1 : Nat) : Int)) :=
  ⟨get_neighbor_tiles_spec.1 2 1 1 (by decide) (by decide) (by decide) (by decide),
   get_neighbor_tiles_spec.2.1 1 (by decide),
   get_neighbor_tiles_spec.2.2 1 0 0 1 1 1 (by decide)⟩

theorem mem_dictInsert {α β : Type} [DecidableEq α] {k : α} {v : β}
    {m : List (α × β)} {e : α × β} (h : e ∈ dictInsert k v m) :
    e = (k, v) ∨ e ∈ m := by
  unfold dictInsert at h
  split at h
  · simp only [List.mem_map] at h
    obtain ⟨p, hp, he⟩ := h
    by_cases hk : p.1 = k
    · rw [if_pos hk] at he
      exact Or.inl he.symm
    · rw [if_neg hk] at he
      exact Or.inr (he ▸ hp)
  · rw [List.mem_append] at h
    rcases h with h | h
    · exact Or.inr h
    · simp only [List.mem_singleton] at h
      exact Or.inl h

theorem search_foldl_sound (gz : Bytes → Bytes) (dec : Bytes → Option DecodedTile)
    (store : Nat → Int → Int → Option Bytes) (targets : List Int)
    (layerName : Option String) :
    ∀ (tiles : List (Nat × Int × Int))
      (acc : List ((Nat × Int × Int) × List (String × List (Feature × List Int)))),
      (∀ e ∈ acc, ∃ d, read_tile_from_mbtiles gz store e.1.1 e.1.2.1 e.1.2.2 = some d ∧
        d ≠ [] ∧ find_targets_in_tile dec d targets layerName = e.2 ∧ e.2 ≠ []) →
      ∀ e ∈ tiles.foldl (searchStep gz dec store targets layerName) acc,
        ∃ d, read_tile_from_mbtiles gz store e.1.1 e.1.2.1 e.1.2.2 = some d ∧
          d ≠ [] ∧ find_targets_in_tile dec d targets layerName = e.2 ∧ e.2 ≠ [] := by
  intro tiles
  induction tiles with
  | nil => intro acc hacc e he; exact hacc e he
  | cons t rest ih =>
    intro acc hacc e he
    rw [List.foldl_cons] at he
    refine ih _ ?_ e he
    intro e' he'
    unfold searchStep at he'
    split at he'
    · exact hacc e' he'
    next tile_data hd =>
      split at he'
      · exact hacc e' he'
      next hdne =>
        cases hres : (find_targets_in_tile dec tile_data targets layerName).isEmpty with
        | true =>
          simp only [hres, if_true] at he'
          exact hacc e' he'
        | false =>
          simp only [hres, Bool.false_eq_true, if_false] at he'
          rcases mem_dictInsert he' with he'' | he''
          · subst he''
            refine ⟨tile_data, hd, hdne, rfl, ?_⟩
            intro hnil
            have hnil' : find_targets_in_tile dec tile_data targets layerName = [] := hnil
            rw [hnil'] at hres
            exact absurd hres (by decide)
          · exact hacc e' he''

theorem findTargets_entry_ne_nil {tile : DecodedTile} {targets : List Int}
    {layerName : Option String} :
    ∀ le ∈ findTargets tile targets layerName, le.2 ≠ [] := by
  intro le hle
  obtain ⟨a, b⟩ := le
  obtain ⟨lay, -, -, hne⟩ := mem_findTargets hle
  exact hne

/-- Claim C9, counterexample: the empty-string layer filter is falsy in
Python, so even though no layer named `""` is present in the tile, the
find operation searches all layers and returns a non-empty mapping. -/
theorem empty_filter_searches_all_layers :
    lookupLayer "" pointTile = none ∧
    findTargets pointTile [7] (some "") =
      [("poi", [(pointFeature, [512, 1024])])] ∧
    findTargets pointTile [7] (some "") ≠ [] := by
  refine ⟨by decide, by decide, by decide⟩

/-- Claim C9, amended: a *non-empty* layer filter naming a layer that is
not present in the decoded tile yields an empty result mapping (and,
being total, raises no error); the empty-string filter is falsy and
triggers an all-layers search instead. -/
theorem find_with_missing_layer_empty :
    ∀ (tile : DecodedTile) (targets : List Int) (ln : String),
      ln ≠ "" →
      lookupLayer ln tile = none →
      findTargets tile targets (some ln) = [] := by
  intro tile targets ln h0 h
  have hlist : layersToSearch tile (some ln) = [ln] := by
    simp [layersToSearch, h0]
  unfold findTargets
  rw [hlist]
  simp [List.filterMap_cons, h]

theorem find_with_missing_layer_empty_witness :
    findTargets pointTile [7] (some "water") = [] :=
  find_with_missing_layer_empty pointTile [7] "water" (by decide) (by decide)

/-- Claim C1, counterexample: a non-Point feature whose id is in the
target set is not counted in the result at all — the find operation
returns the empty mapping, with no per-layer match list for it. -/
theorem nonpoint_match_dropped :
    lineFeature.id = some 5 ∧ (5 : Int) ∈ ([5] : List Int) ∧
    lineFeature.geom.type = some "LineString" ∧
    lineFeature.geom.type ≠ some "Point" ∧
    lookupLayer "roads" lineTile = some ⟨[some lineFeature]⟩ ∧
    findTargets lineTile [5] none = [] := by
  refine ⟨rfl, by decide, rfl, by decide, by decide, by decide⟩

/-- Claim C1, amended: only Point-geometry matches with a coordinate
list of length at least 2 appear in the find result, each carrying its
coordinate pair; non-Point matches are omitted entirely, not counted. -/
theorem find_matches_are_points :
    ∀ (tile : DecodedTile) (targets : List Int) (layerName : Option String)
      (ln : String) (ms : List (Feature × List Int)) (feat : Feature) (cs : List Int),
      (ln, ms) ∈ findTargets tile targets layerName → (feat, cs) ∈ ms →
      feat.geom.type = some "Point" ∧ feat.geom.coordinates = some cs ∧
      2 ≤ cs.length ∧ ∃ fid, feat.id = some fid ∧ fid ∈ targets := by
  intro tile targets layerName ln ms feat cs h1 h2
  obtain ⟨lay, -, rfl, -⟩ := mem_findTargets h1
  unfold layerMatches at h2
  simp only [List.mem_filterMap] at h2
  obtain ⟨fe, -, hfe⟩ := h2
  obtain ⟨-, hpt, hco, hlen, hfid⟩ := featureMatchEntry_sound hfe
  exact ⟨hpt, hco, hlen, hfid⟩

theorem find_matches_are_points_witness :
    pointFeature.geom.type = some "Point" ∧
    pointFeature.geom.coordinates = some [512, 1024] ∧
    2 ≤ ([512, 1024] : List Int).length ∧
    ∃ fid, pointFeature.id = some fid ∧ fid ∈ ([7] : List Int) :=
  find_matches_are_points pointTile [7] none "poi"
    [(pointFeature, [512, 1024])] pointFeature [512, 1024] (by decide) (by decide)

/-- Claim C7, counterexample: a layer with two distinct features sharing
target id 5 for which the find operation returns neither (both have
LineString geometry), so it does not return both features. -/
theorem duplicate_id_nonpoint_not_returned :
    lineFeature ≠ lineFeature2 ∧
    lineFeature.id = some 5 ∧ lineFeature2.id = some 5 ∧
    lookupLayer "roads" dupTile = some ⟨[some lineFeature, some lineFeature2]⟩ ∧
    findTargets dupTile [5] none = [] := by
  refine ⟨by decide, rfl, rfl, by decide, by decide⟩

/-- Claim C7, amended: whenever two feature entries of a layer both pass
the find operation's match filter (id in the target set, Point geometry,
a coordinate list of length ≥ 2), both matches appear in the layer's
result list, in feature order — every match is returned, not just the
first. -/
theorem find_returns_every_match :
    ∀ (tile : DecodedTile) (targets : List Int) (ln : String) (lay : Layer)
      (pre mid suf : List (Option Feature)) (f1 f2 : Option Feature)
      (e1 e2 : Feature × List Int),
      lookupLayer ln tile = some lay →
      lay.features = pre ++ (f1 :: (mid ++ (f2 :: suf))) →
      featureMatchEntry targets f1 = some e1 →
      featureMatchEntry targets f2 = some e2 →
      (ln, pre.filterMap (featureMatchEntry targets) ++
        (e1 :: (mid.filterMap (featureMatchEntry targets) ++
          (e2 :: suf.filterMap (featureMatchEntry targets))))) ∈
        findTargets tile targets (some ln) := by
  intro tile targets ln lay pre mid suf f1 f2 e1 e2 hl hfeats h1 h2
  have hms : layerMatches targets lay =
      pre.filterMap (featureMatchEntry targets) ++
        (e1 :: (mid.filterMap (featureMatchEntry targets) ++
          (e2 :: suf.filterMap (featureMatchEntry targets)))) := by
    unfold layerMatches
    rw [hfeats]
    simp [List.filterMap_append, List.filterMap_cons, h1, h2]
  have hne : (layerMatches targets lay).isEmpty = false := by
    rw [hms]
    cases pre.filterMap (featureMatchEntry targets) <;> rfl
  have hkey : ln ∈ layersToSearch tile (some ln) := by
    by_cases h0 : ln = ""
    · have hlist : layersToSearch tile (some ln) = tile.map Prod.fst := by
        simp [layersToSearch, h0]
      rw [hlist]
      exact lookupLayer_mem_keys hl
    · have hlist : layersToSearch tile (some ln) = [ln] := by
        simp [layersToSearch, h0]
      rw [hlist]
      simp
  unfold findTargets
  refine List.mem_filterMap.mpr ⟨ln, hkey, ?_⟩
  simp [hl, hne, hms]

theorem find_returns_every_match_witness :
    ("poi", (([] : List (Option Feature)).filterMap (featureMatchEntry [7]) ++
      ((pointFeature, ([512, 1024] : List Int)) ::
        (([] : List (Option Feature)).filterMap (featureMatchEntry [7]) ++
          ((pointFeature2, ([3, 4] : List Int)) ::
            ([] : List (Option Feature)).filterMap (featureMatchEntry [7]))))))
      ∈ findTargets dupPointTile [7] (some "poi") :=
  find_returns_every_match dupPointTile [7] "poi"
    ⟨[some pointFeature, some pointFeature2]⟩
    [] [] [] (some pointFeature) (some pointFeature2)
    (pointFeature, [512, 1024]) (pointFeature2, [3, 4])
    (by decide) (by decide) (by decide) (by decide)

/-- Claim C2, counterexample: a tile whose fetch succeeds but whose
decode fails does not appear in the aggregate at all — the aggregate is
empty, carrying no per-tile failure record, so the failure is a silent
omission in the aggregate. -/
theorem failed_tile_silently_omitted :
    read_tile_from_mbtiles id brokenStore 1 0 0 = some [1, 2, 3] ∧
    decFail [1, 2, 3] = none ∧
    search_all_tiles id decFail brokenStore [(1, 0, 0)] [5] none = [] := by
  refine ⟨by decide, rfl, by decide⟩

/-- Claim C2, amended: a tile whose fetch or decode fails contributes no
entry to the aggregate result at all (the failure is only printed to
stdout); the aggregate holds keys only for tiles that were fetched,
decoded and matched, so the aggregate alone cannot distinguish an absent
tile from a broken one. -/
theorem failed_tile_omitted_from_aggregate :
    ∀ (gz : Bytes → Bytes) (dec : Bytes → Option DecodedTile)
      (store : Nat → Int → Int → Option Bytes)
      (tiles : List (Nat × Int × Int)) (targets : List Int)
      (layerName : Option String) (z : Nat) (x y : Int),
      (read_tile_from_mbtiles gz store z x y = none ∨
        ∃ d, read_tile_from_mbtiles gz store z x y = some d ∧ dec d = none) →
      ∀ v, ((z, x, y), v) ∉ search_all_tiles gz dec store tiles targets layerName := by
  intro gz dec store tiles targets layerName z x y h v hv
  obtain ⟨d, hd, hdne, hfind, hne⟩ :=
    search_foldl_sound gz dec store targets layerName tiles [] (by simp) _ hv
  rcases h with h | ⟨d', hd', hdec⟩
  · rw [h] at hd
    exact absurd hd (by simp)
  · rw [hd'] at hd
    injection hd with hdd
    subst hdd
    simp only [find_targets_in_tile, hdec] at hfind
    exact hne hfind.symm

theorem failed_tile_omitted_from_aggregate_witness :
    ((1, (0 : Int), (0 : Int)),
      ([("poi", [(pointFeature, ([512, 1024] : List Int))])] :
        List (String × List (Feature × List Int)))) ∉
      search_all_tiles id decFail emptyStore [(1, 0, 0)] [5] none :=
  failed_tile_omitted_from_aggregate id decFail emptyStore [(1, 0, 0)] [5] none
    1 0 0 (Or.inl rfl) _

/-- Claim C6: a tile with no row in the store contributes nothing to the
aggregate and raises no error, and a decode failure on one tile does not
abort the scan — the scan of the remaining tiles yields exactly what it
would have yielded without the failing tile. -/
theorem scan_continues_after_failure :
    ∀ (gz : Bytes → Bytes) (dec : Bytes → Option DecodedTile)
      (store : Nat → Int → Int → Option Bytes) (z : Nat) (x y : Int)
      (rest : List (Nat × Int × Int)) (targets : List Int)
      (layerName : Option String),
      (read_tile_from_mbtiles gz store z x y = none →
        search_all_tiles gz dec store ((z, x, y) :: rest) targets layerName =
          search_all_tiles gz dec store rest targets layerName) ∧
      (∀ d, read_tile_from_mbtiles gz store z x y = some d → dec d = none →
        search_all_tiles gz dec store ((z, x, y) :: rest) targets layerName =
          search_all_tiles gz dec store rest targets layerName) := by
  intro gz dec store z x y rest targets layerName
  constructor
  · intro h
    have hstep : searchStep gz dec store targets layerName [] (z, x, y) = [] := by
      simp [searchStep, h]
    unfold search_all_tiles
    rw [List.foldl_cons, hstep]
  · intro d h hdec
    have hstep : searchStep gz dec store targets layerName [] (z, x, y) = [] := by
      simp [searchStep, h, find_targets_in_tile, hdec]
    unfold search_all_tiles
    rw [List.foldl_cons, hstep]

theorem scan_continues_after_failure_witness :
    search_all_tiles id decFail emptyStore [(0, 0, 0), (1, 0, 0)] [5] none =
      search_all_tiles id decFail emptyStore [(1, 0, 0)] [5] none ∧
    search_all_tiles id decFail brokenStore [(1, 0, 0), (2, 0, 0)] [5] none =
      search_all_tiles id decFail brokenStore [(2, 0, 0)] [5] none :=
  ⟨(scan_continues_after_failure id decFail emptyStore 0 0 0 [(1, 0, 0)] [5] none).1 rfl,
   (scan_continues_after_failure id decFail brokenStore 1 0 0 [(2, 0, 0)] [5] none).2
     [1, 2, 3] (by decide) rfl⟩

/-- Claim C10: every entry of the aggregate is non-empty — a tile key is
present only with a per-layer mapping holding at least one layer, each
layer entry holds at least one matched feature, and every present key
was fetched (non-empty bytes) and decoded successfully; tiles that were
not found, failed to decode, or matched nothing are absent. -/
theorem search_all_tiles_entries_sound :
    ∀ (gz : Bytes → Bytes) (dec : Bytes → Option DecodedTile)
      (store : Nat → Int → Int → Option Bytes)
      (tiles : List (Nat × Int × Int)) (targets : List Int)
      (layerName : Option String)
      (e : (Nat × Int × Int) × List (String × List (Feature × List Int))),
      e ∈ search_all_tiles gz dec store tiles targets layerName →
      e.2 ≠ [] ∧ (∀ le ∈ e.2, le.2 ≠ []) ∧
      ∃ d, read_tile_from_mbtiles gz store e.1.1 e.1.2.1 e.1.2.2 = some d ∧
        d ≠ [] ∧ ∃ tile, dec d = some tile ∧
          findTargets tile targets layerName = e.2 := by
  intro gz dec store tiles targets layerName e he
  obtain ⟨d, hd, hdne, hfind, hne⟩ :=
    search_foldl_sound gz dec store targets layerName tiles [] (by simp) e he
  cases hdec : dec d with
  | none =>
    simp only [find_targets_in_tile, hdec] at hfind
    exact absurd hfind.symm hne
  | some tile =>
    simp only [find_targets_in_tile, hdec] at hfind
    refine ⟨hne, ?_, d, hd, hdne, tile, hdec, hfind⟩
    intro le hle
    exact findTargets_entry_ne_nil le (hfind ▸ hle)

theorem search_all_tiles_entries_sound_witness :
    (([("poi", [(pointFeature, ([512, 1024] : List Int))])] :
        List (String × List (Feature × List Int))) ≠ [] ∧
      (∀ le ∈ ([("poi", [(pointFeature, ([512, 1024] : List Int))])] :
        List (String × List (Feature × List Int))), le.2 ≠ []) ∧
      ∃ d, read_tile_from_mbtiles id oneStore 1 0 0 = some d ∧
        d ≠ [] ∧ ∃ tile, decPoi d = some tile ∧
          findTargets tile [7] none =
            [("poi", [(pointFeature, [512, 1024])])]) :=
  search_all_tiles_entries_sound id decPoi oneStore [(1, 0, 0)] [7] none
    ((1, 0, 0), [("poi", [(pointFeature, [512, 1024])])]) (by decide)

/-- Claim C8, counterexample: the probe's validity check is not a no-op —
with the check every fetched tile is reported as not a valid MVT and the
negative-coordinate scan never runs, while without the check the same
input decodes and the scan finds a negative coordinate. -/
theorem magic_check_not_noop :
    check_tile_for_negative_coords id decNeg oneStore 14 9544 4740 =
      ProbeOutcome.wrongMagic ∧
    check_tile_without_magic_check id decNeg oneStore 14 9544 4740 =
      ProbeOutcome.scanned true ∧
    ProbeOutcome.wrongMagic ≠ ProbeOutcome.scanned true := by
  refine ⟨by decide, by decide, by decide⟩

/-- Claim C8, amended: `tile_data[:0]` is always the empty byte string
and the comparison `tile_data[:0] != b'\x1a'` is always true, so the
check always fires: for every tile found in the store the probe reports
"Not a valid MVT tile (wrong magic)" and returns before decoding. -/
theorem magic_check_always_fires :
    (∀ data : Bytes, data.take 0 = [] ∧ data.take 0 ≠ [0x1a]) ∧
    (∀ (gz : Bytes → Bytes) (dec : Bytes → Option DecodedTile)
       (store : Nat → Int → Int → Option Bytes)
       (zoom : Nat) (x y : Int) (raw : Bytes),
      store zoom x (flip_y zoom y) = some raw →
      check_tile_for_negative_coords gz dec store zoom x y =
        ProbeOutcome.wrongMagic) := by
  constructor
  · intro data
    exact ⟨by simp, by simp⟩
  · intro gz dec store zoom x y raw h
    unfold check_tile_for_negative_coords
    rw [h]
    simp

theorem magic_check_always_fires_witness :
    (([7] : Bytes).take 0 = [] ∧ ([7] : Bytes).take 0 ≠ [0x1a]) ∧
    check_tile_for_negative_coords id decFail brokenStore 2 0 0 =
      ProbeOutcome.wrongMagic :=
  ⟨magic_check_always_fires.1 [7],
   magic_check_always_fires.2 id decFail brokenStore 2 0 0 [1, 2, 3] rfl⟩

end Tilemaker
